import Mathlib

/-!
Verification development for the polymarket-bot-summer dashboard core.

The definitions below are a shallow embedding of the Rust source:
- `src/spike_detection.rs`: `SpikeDetector` with `check_volume_velocity` and
  `calculate_order_book_imbalance`.  Rust `f64` values are modelled as `ℚ`
  (all spec-level formulas and test vectors are exactly representable),
  `i64` timestamps as `ℤ`, and the `HashMap<String, VolumeHistory>` as an
  association list with lookup/insert helpers.  The database insert of a
  velocity event is modelled by an explicit `saved_events` list on the
  detector state and an (Option String) result for the sqlx call: `none`
  models `Ok(())`, `some e` models `Err(e)`.
- `src/tui/app.rs`: the `App` state machine (tabs, input modes, watchlist,
  log ring buffer, command interpreter, key handlers).  Wall-clock log
  timestamps, the execution-engine stubs, the market-analysis simulation
  state and the RNG are side effects not observed by any property below and
  are omitted from the state; external collaborator results (HTTP search /
  trending, database save/remove, cancel-all) are passed in explicitly.
-/

namespace PolymarketBot

/- ===================== spike_detection.rs ===================== -/

/-- `types.rs` `VolumeVelocityEvent`. -/
structure VolumeVelocityEvent where
  market_id : String
  velocity : ℚ
  volume_delta : ℚ
  time_delta : ℚ
  timestamp : ℤ
deriving Repr, DecidableEq

/-- `spike_detection.rs` `VolumeHistory`. -/
structure VolumeHistory where
  last_volume : ℚ
  last_timestamp : ℤ
deriving Repr, DecidableEq

/-- `spike_detection.rs` `SpikeDetector`; the `db` pool is modelled by the
list `saved_events` of rows inserted into `volume_velocity_events`. -/
structure SpikeDetector where
  volume_history : List (String × VolumeHistory)
  saved_events : List VolumeVelocityEvent
  volume_velocity_threshold : ℚ
  obi_threshold : ℚ
deriving Repr, DecidableEq

/-- `HashMap::get` on the association-list model. -/
def hmGet (m : List (String × VolumeHistory)) (k : String) : Option VolumeHistory :=
  (m.find? (fun p => p.1 == k)).map Prod.snd

/-- `HashMap::insert` on the association-list model: replace the entry for
the key when present, append otherwise. -/
def hmInsert (m : List (String × VolumeHistory)) (k : String) (v : VolumeHistory) :
    List (String × VolumeHistory) :=
  if m.any (fun p => p.1 == k) then
    m.map (fun p => if p.1 == k then (k, v) else p)
  else
    m ++ [(k, v)]

/-- `SpikeDetector::check_volume_velocity`.  `now` stands for
`Utc::now().timestamp()`; `save_result` is the outcome of the sqlx insert
performed by `save_velocity_event` (`none` = `Ok`).  Returns the Rust
`Result<Option<VolumeVelocityEvent>>` together with the updated detector. -/
def check_volume_velocity (d : SpikeDetector) (market_id : String)
    (current_volume : ℚ) (now : ℤ) (save_result : Option String) :
    Except String (Option VolumeVelocityEvent) × SpikeDetector :=
  let event : Option VolumeVelocityEvent :=
    match hmGet d.volume_history market_id with
    | some history =>
      let volume_delta := current_volume - history.last_volume
      let time_delta : ℚ := ((now - history.last_timestamp : ℤ) : ℚ)
      if time_delta > 0 then
        let velocity := volume_delta / time_delta
        if |velocity| > d.volume_velocity_threshold then
          some ⟨market_id, velocity, volume_delta, time_delta, now⟩
        else
          none
      else
        none
    | none => none
  let d1 : SpikeDetector :=
    { d with volume_history := hmInsert d.volume_history market_id ⟨current_volume, now⟩ }
  match event with
  | some evt =>
    match save_result with
    | some e => (.error e, d1)
    | none => (.ok (some evt), { d1 with saved_events := d1.saved_events ++ [evt] })
  | none => (.ok none, d1)

/-- `SpikeDetector::calculate_order_book_imbalance`. -/
def calculate_order_book_imbalance (bids_volume asks_volume : ℚ) : ℚ :=
  let total_volume := bids_volume + asks_volume
  if total_volume = 0 then 0
  else (bids_volume - asks_volume) / total_volume

/-- `SpikeDetector::is_significant_imbalance`. -/
def is_significant_imbalance (d : SpikeDetector) (obi : ℚ) : Bool :=
  |obi| > d.obi_threshold

/- ===================== tui/app.rs: data model ===================== -/

/-- `tui/app.rs` `Tab`. -/
inductive Tab where
  | Dashboard
  | Orders
  | Markets
  | MarketDetail
  | Logs
  | Docs
deriving Repr, DecidableEq

/-- `Tab::next`. -/
def Tab.next : Tab → Tab
  | .Dashboard => .Orders
  | .Orders => .Markets
  | .Markets => .MarketDetail
  | .MarketDetail => .Logs
  | .Logs => .Docs
  | .Docs => .Dashboard

/-- `Tab::prev`. -/
def Tab.prev : Tab → Tab
  | .Dashboard => .Docs
  | .Orders => .Dashboard
  | .Markets => .Orders
  | .MarketDetail => .Markets
  | .Logs => .MarketDetail
  | .Docs => .Logs

/-- `tui/app.rs` `InputMode`. -/
inductive InputMode where
  | Normal
  | Command
  | QuitConfirmation
  | LeaveMarketConfirmation
deriving Repr, DecidableEq

/-- `tui/app.rs` `QuitSelection`. -/
inductive QuitSelection where
  | No
  | Yes
deriving Repr, DecidableEq

/-- `tui/app.rs` `LeaveSelection`. -/
inductive LeaveSelection where
  | No
  | Yes
deriving Repr, DecidableEq

/-- `tui/app.rs` `LogLevel`. -/
inductive LogLevel where
  | Info
  | Warning
  | Error
  | Success
deriving Repr, DecidableEq

/-- `tui/app.rs` `LogEntry`.  The `timestamp` field is a wall-clock string
(`chrono::Local::now().format("%H:%M:%S")`), a side effect outside the
state machine; it is not modelled. -/
structure LogEntry where
  level : LogLevel
  message : String
deriving Repr, DecidableEq

/-- `markets.rs` `MarketInfo`. -/
structure MarketInfo where
  id : String
  question : String
  active : Bool
  order_book_enabled : Bool
  volume : String
  outcomes : List String
  prices : List ℚ
deriving Repr, DecidableEq, Inhabited

/-- crossterm `KeyCode`, restricted to the variants `app.rs` matches on. -/
inductive KeyCode where
  | Char (c : Char)
  | Enter
  | Esc
  | Backspace
  | Delete
  | Up
  | Down
  | Left
  | Right
  | Tab
  | BackTab
deriving Repr, DecidableEq

/-- crossterm `KeyEvent`: a key code plus whether CONTROL is among the
modifiers (the only modifier `app.rs` inspects). -/
structure KeyEvent where
  code : KeyCode
  ctrl : Bool
deriving Repr, DecidableEq

/-- Results of the external collaborator calls an event handler may make:
HTTP market search / trending (`Except` models `anyhow::Result`),
database save/remove of a watched market (`none` = `Ok`), and the
execution engine's `cancel_all_orders`. -/
structure Ext where
  search_result : Except String (List MarketInfo)
  trending_result : Except String (List MarketInfo)
  save_result : Option String
  remove_result : Option String
  cancel_result : Except String Nat
deriving Repr

/-- `tui/app.rs` `App`, restricted to the fields that the state machine
reads or writes.  Omitted as unobserved side effects or external handles:
`db_pool`, `execution_engine`, `market_service`, `portfolio`,
`active_orders`, `last_order_id`, `last_refresh`, `market_analysis_data`
and `rng_state` (used only by the refresh/simulation path).  The lists
`db_save_calls` / `db_remove_calls` record the arguments of every
`save_watched_market` / `remove_watched_market` invocation. -/
structure App where
  current_tab : Tab
  should_quit : Bool
  logs : List LogEntry
  is_paused : Bool
  input_mode : InputMode
  command_input : String
  quit_selection : QuitSelection
  leave_selection : LeaveSelection
  available_markets : List MarketInfo
  joined_markets : List String
  watched_markets_info : List MarketInfo
  market_search_query : String
  selected_market_index : Nat
  selected_watched_market_index : Nat
  is_loading_markets : Bool
  docs_selected_section : Nat
  docs_viewing_content : Bool
  docs_scroll_offset : Nat
  db_save_calls : List MarketInfo
  db_remove_calls : List String
deriving Repr, DecidableEq

/-- The freshly constructed `App` state (`App::new`, before its initial
`add_log` greetings, which are irrelevant to every property below). -/
def emptyApp : App where
  current_tab := .Dashboard
  should_quit := false
  logs := []
  is_paused := false
  input_mode := .Normal
  command_input := ""
  quit_selection := .No
  leave_selection := .No
  available_markets := []
  joined_markets := []
  watched_markets_info := []
  market_search_query := ""
  selected_market_index := 0
  selected_watched_market_index := 0
  is_loading_markets := false
  docs_selected_section := 0
  docs_viewing_content := false
  docs_scroll_offset := 0
  db_save_calls := []
  db_remove_calls := []

/- ===================== tui/app.rs: operations ===================== -/

/-- `App::add_log`: push the entry, then drop the oldest entry when the
buffer exceeds 100 (`self.logs.remove(0)`). -/
def App.add_log (app : App) (level : LogLevel) (message : String) : App :=
  let logs := app.logs ++ [⟨level, message⟩]
  { app with logs := if logs.length > 100 then logs.drop 1 else logs }

/-- Numeric value of a list of ASCII digit characters. -/
def digitsToNat (cs : List Char) : Nat :=
  cs.foldl (fun acc c => acc * 10 + (c.toNat - '0'.toNat)) 0

/-- Rust `str::parse::<usize>()`: an optional leading `+`, then a
non-empty run of ASCII digits, rejecting values that overflow `usize`
(64-bit on the target). -/
def parseUsize (s : String) : Option Nat :=
  let cs :=
    match s.data with
    | '+' :: rest => rest
    | other => other
  if cs = [] then none
  else if ¬ cs.all Char.isDigit then none
  else if 2 ^ 64 ≤ digitsToNat cs then none
  else some (digitsToNat cs)

/-- `App::join_market`.  `save_result` is the outcome of
`save_watched_market` if it gets invoked (`none` = `Ok`). -/
def App.join_market (app : App) (market_ref : String) (save_result : Option String) : App :=
  match parseUsize market_ref with
  | some index =>
    if 0 < index ∧ index ≤ app.available_markets.length then
      let market := app.available_markets.getD (index - 1) default
      let market_id := market.id
      let question := market.question
      if ¬ app.joined_markets.contains market_id then
        let app1 := { app with db_save_calls := app.db_save_calls ++ [market] }
        match save_result with
        | some e => app1.add_log .Error ("Failed to save market: " ++ e)
        | none =>
          let app2 := { app1 with
            joined_markets := app1.joined_markets ++ [market_id],
            watched_markets_info := app1.watched_markets_info ++ [market] }
          (app2.add_log .Success ("Joined market: " ++ question)).add_log
            .Info ("ID: " ++ market_id)
      else
        app.add_log .Warning "Already monitoring this market"
    else
      app.add_log .Error
        ("Invalid index: " ++ toString index ++ ". Use 1-"
          ++ toString app.available_markets.length)
  | none =>
    let market_id := market_ref
    if ¬ app.joined_markets.contains market_id then
      match app.available_markets.find? (fun m => m.id == market_id) with
      | some market =>
        let app1 := { app with db_save_calls := app.db_save_calls ++ [market] }
        match save_result with
        | some e => app1.add_log .Error ("Failed to save market: " ++ e)
        | none =>
          let app2 := { app1 with
            watched_markets_info := app1.watched_markets_info ++ [market],
            joined_markets := app1.joined_markets ++ [market_id] }
          app2.add_log .Success ("Joined market: " ++ market_id)
      | none =>
        let app1 := { app with joined_markets := app.joined_markets ++ [market_id] }
        app1.add_log .Success ("Joined market: " ++ market_id)
    else
      app.add_log .Warning "Already monitoring this market"

/-- `App::leave_market`.  `remove_result` is the outcome of
`remove_watched_market` if it gets invoked (`none` = `Ok`). -/
def App.leave_market (app : App) (market_id : String) (remove_result : Option String) : App :=
  match app.joined_markets.findIdx? (fun m => m == market_id) with
  | some pos =>
    let app1 := { app with db_remove_calls := app.db_remove_calls ++ [market_id] }
    match remove_result with
    | some e => app1.add_log .Error ("Failed to remove from DB: " ++ e)
    | none =>
      let app2 := { app1 with
        joined_markets := app1.joined_markets.eraseIdx pos,
        watched_markets_info := app1.watched_markets_info.filter (fun m => m.id != market_id) }
      app2.add_log .Info ("Left market: " ++ market_id)
  | none =>
    app.add_log .Warning ("Not monitoring market: " ++ market_id)

/-- `App::search_markets` (the HTTP call's outcome is `result`). -/
def App.search_markets (app : App) (keyword : String)
    (result : Except String (List MarketInfo)) : App :=
  let app1 := app.add_log .Info ("Searching markets: " ++ keyword ++ "...")
  let app2 := { app1 with
    market_search_query := keyword,
    is_loading_markets := true,
    current_tab := Tab.Markets }
  match result with
  | .ok markets =>
    let count := markets.length
    let app3 := { app2 with
      available_markets := markets,
      selected_market_index := 0,
      is_loading_markets := false }
    app3.add_log .Success ("Found " ++ toString count ++ " markets")
  | .error e =>
    let app3 := { app2 with is_loading_markets := false }
    app3.add_log .Error ("Search failed: " ++ e)

/-- `App::load_trending_markets` (the HTTP call's outcome is `result`). -/
def App.load_trending_markets (app : App)
    (result : Except String (List MarketInfo)) : App :=
  let app1 := app.add_log .Info "Loading trending markets..."
  let app2 := { app1 with
    market_search_query := "Trending",
    is_loading_markets := true,
    current_tab := Tab.Markets }
  match result with
  | .ok markets =>
    let count := markets.length
    let app3 := { app2 with
      available_markets := markets,
      selected_market_index := 0,
      is_loading_markets := false }
    app3.add_log .Success ("Loaded " ++ toString count ++ " trending markets")
  | .error e =>
    let app3 := { app2 with is_loading_markets := false }
    app3.add_log .Error ("Failed to load trending: " ++ e)

/-- `App::show_command_help`. -/
def App.show_command_help (app : App) : App :=
  ((((app.add_log .Info "─── Available Commands ───").add_log
      .Info "/search <keyword>  - Search markets").add_log
      .Info "/trending          - Show trending markets").add_log
      .Info "/joinmarket <id|#> - Join market by ID or index").add_log
      .Info "/leavemarket <id>  - Leave a market"
    |>.add_log .Info "/help              - Show this help"

/-- `App::execute_command`: trim, split on whitespace, lowercase the verb,
dispatch. -/
def App.execute_command (app : App) (command : String) (ext : Ext) : App :=
  let parts := (command.trim.split Char.isWhitespace).filter (fun t => t ≠ "")
  match parts with
  | [] => app
  | cmdTok :: args =>
    let cmd := cmdTok.toLower
    if cmd = "/search" ∨ cmd = "search" ∨ cmd = "/s" ∨ cmd = "s" then
      match args with
      | [] => app.add_log .Warning "Usage: /search <keyword>"
      | _ :: _ => app.search_markets (" ".intercalate args) ext.search_result
    else if cmd = "/joinmarket" ∨ cmd = "joinmarket" ∨ cmd = "/join" ∨ cmd = "join"
        ∨ cmd = "/j" ∨ cmd = "j" then
      match args with
      | [] => app.add_log .Warning "Usage: /joinmarket <market_id or index>"
      | first :: _ => app.join_market first ext.save_result
    else if cmd = "/leavemarkt" ∨ cmd = "leavemarket" ∨ cmd = "/leave" ∨ cmd = "leave"
        ∨ cmd = "/l" then
      match args with
      | [] => app.add_log .Warning "Usage: /leavemarket <market_id>"
      | first :: _ => app.leave_market first ext.remove_result
    else if cmd = "/trending" ∨ cmd = "trending" ∨ cmd = "/t" ∨ cmd = "t" then
      app.load_trending_markets ext.trending_result
    else if cmd = "/help" ∨ cmd = "help" ∨ cmd = "/h" ∨ cmd = "?" then
      app.show_command_help
    else
      (app.add_log .Warning ("Unknown command: " ++ cmd)).add_log
        .Info "Type /help for available commands"

/-- `App::handle_command_input`. -/
def App.handle_command_input (app : App) (event : KeyEvent) (ext : Ext) : App :=
  match event.code with
  | .Enter =>
    let command := app.command_input
    let app1 := { app with command_input := "", input_mode := InputMode.Normal }
    app1.execute_command command ext
  | .Esc => { app with command_input := "", input_mode := InputMode.Normal }
  | .Backspace => { app with command_input := app.command_input.dropRight 1 }
  | .Char c => { app with command_input := app.command_input.push c }
  | _ => app

/-- `DOC_LINE_COUNTS` from the Docs-tab scroll handler. -/
def docLineCounts : List Nat := [38, 37, 40, 35, 38]

/-- `App::handle_normal_input`.  The first branch is the dedicated Docs-tab
block; `Nat` subtraction models the `saturating_sub` calls, and the `u16`
`saturating_add` cannot saturate since the scroll offset is bounded by
`max_scroll ≤ 40`. -/
def App.handle_normal_input (app : App) (event : KeyEvent) (ext : Ext) : App :=
  if app.current_tab = Tab.Docs then
    match event.code with
    | .Up | .Char 'k' =>
      if app.docs_viewing_content then
        { app with docs_scroll_offset := app.docs_scroll_offset - 1 }
      else if 0 < app.docs_selected_section then
        { app with docs_selected_section := app.docs_selected_section - 1 }
      else app
    | .Down | .Char 'j' =>
      if app.docs_viewing_content then
        let max_scroll := ((docLineCounts.get? app.docs_selected_section).getD 30) - 10
        if app.docs_scroll_offset < max_scroll then
          { app with docs_scroll_offset := app.docs_scroll_offset + 1 }
        else app
      else if app.docs_selected_section < 4 then
        { app with docs_selected_section := app.docs_selected_section + 1 }
      else app
    | .Enter =>
      if ¬ app.docs_viewing_content then
        { app with docs_viewing_content := true, docs_scroll_offset := 0 }
      else app
    | .Backspace | .Left | .Esc =>
      if app.docs_viewing_content then
        { app with docs_viewing_content := false, docs_scroll_offset := 0 }
      else
        { app with current_tab := app.current_tab.prev }
    | .Right | .Tab =>
      if ¬ app.docs_viewing_content then
        { app with current_tab := app.current_tab.next }
      else app
    | .Char 'q' | .Char 'Q' =>
      { app with input_mode := InputMode.QuitConfirmation, quit_selection := QuitSelection.No }
    | .Char '1' => { app with current_tab := Tab.Dashboard }
    | .Char '2' => { app with current_tab := Tab.Orders }
    | .Char '3' => { app with current_tab := Tab.Markets }
    | .Char '4' => { app with current_tab := Tab.MarketDetail }
    | .Char '5' => { app with current_tab := Tab.Logs }
    | .Char '6' => { app with current_tab := Tab.Docs }
    | .Char 'c' =>
      if event.ctrl then { app with should_quit := true } else app
    | _ => app
  else
    match event.code with
    | .Char ':' | .Char '/' =>
      { app with input_mode := InputMode.Command, command_input := "/" }
    | .Char 's' | .Char 'S' =>
      { app with
        input_mode := InputMode.Command,
        command_input := "/search ",
        current_tab := Tab.Markets }
    | .Char 't' | .Char 'T' => app.load_trending_markets ext.trending_result
    | .Up | .Char 'k' =>
      if app.current_tab = Tab.Markets ∧ 0 < app.selected_market_index then
        { app with selected_market_index := app.selected_market_index - 1 }
      else if app.current_tab = Tab.MarketDetail ∧ 0 < app.selected_watched_market_index then
        { app with selected_watched_market_index := app.selected_watched_market_index - 1 }
      else app
    | .Down | .Char 'j' =>
      if app.current_tab = Tab.Markets
          ∧ app.selected_market_index < app.available_markets.length - 1 then
        { app with selected_market_index := app.selected_market_index + 1 }
      else if app.current_tab = Tab.MarketDetail
          ∧ app.selected_watched_market_index < app.watched_markets_info.length - 1 then
        { app with selected_watched_market_index := app.selected_watched_market_index + 1 }
      else app
    | .Enter =>
      if app.current_tab = Tab.Markets ∧ app.available_markets ≠ [] then
        app.join_market (toString (app.selected_market_index + 1)) ext.save_result
      else app
    | .Delete | .Backspace =>
      if app.current_tab = Tab.MarketDetail ∧ app.watched_markets_info ≠ [] then
        { app with
          input_mode := InputMode.LeaveMarketConfirmation,
          leave_selection := LeaveSelection.No }
      else app
    | .Char 'q' | .Char 'Q' =>
      { app with input_mode := InputMode.QuitConfirmation, quit_selection := QuitSelection.No }
    | .Tab | .Right => { app with current_tab := app.current_tab.next }
    | .BackTab | .Left => { app with current_tab := app.current_tab.prev }
    | .Char '1' => { app with current_tab := Tab.Dashboard }
    | .Char '2' => { app with current_tab := Tab.Orders }
    | .Char '3' => { app with current_tab := Tab.Markets }
    | .Char '4' => { app with current_tab := Tab.MarketDetail }
    | .Char '5' => { app with current_tab := Tab.Logs }
    | .Char '6' => { app with current_tab := Tab.Docs }
    | .Char 'p' | .Char 'P' =>
      ({ app with is_paused := true } : App).add_log .Warning "Bot PAUSED - trading disabled"
    | .Char 'r' | .Char 'R' =>
      ({ app with is_paused := false } : App).add_log .Success "Bot RESUMED - trading enabled"
    | .Char '!' =>
      let app1 := app.add_log .Error "🚨 PANIC MODE ACTIVATED"
      let app2 :=
        match ext.cancel_result with
        | .ok count =>
          (app1.add_log .Error ("Cancelled " ++ toString count ++ " orders")).add_log
            .Error "Bot is now PAUSED"
        | .error e => app1.add_log .Error ("Panic error: " ++ e)
      { app2 with is_paused := true }
    | .Char 'e' | .Char 'E' => app.add_log .Info "Export feature coming soon..."
    | .Char 'h' | .Char 'H' =>
      (((((((((app.add_log .Info "─── Keyboard Shortcuts ───").add_log
        .Info ":        : Enter command mode").add_log
        .Info "S        : Quick search markets").add_log
        .Info "T        : Load trending markets").add_log
        .Info "Tab/←/→  : Navigate tabs").add_log
        .Info "↑/↓      : Navigate markets list").add_log
        .Info "Enter    : Join selected market").add_log
        .Info "P        : Pause bot").add_log
        .Info "R        : Resume bot").add_log
        .Info "!        : PANIC mode"
        |>.add_log .Info "Q        : Quit"
    | .Char 'c' =>
      if event.ctrl then { app with should_quit := true } else app
    | _ => app

/-- `App::handle_quit_confirmation`. -/
def App.handle_quit_confirmation (app : App) (event : KeyEvent) : App :=
  match event.code with
  | .Left | .Right | .Tab | .BackTab =>
    { app with quit_selection :=
        match app.quit_selection with
        | .No => .Yes
        | .Yes => .No }
  | .Enter =>
    let app1 :=
      if app.quit_selection = QuitSelection.Yes then { app with should_quit := true } else app
    { app1 with input_mode := InputMode.Normal }
  | .Esc => { app with input_mode := InputMode.Normal }
  | _ => app

/-- `App::handle_leave_confirmation`. -/
def App.handle_leave_confirmation (app : App) (event : KeyEvent) (ext : Ext) : App :=
  match event.code with
  | .Left | .Right | .Tab | .BackTab =>
    { app with leave_selection :=
        match app.leave_selection with
        | .No => .Yes
        | .Yes => .No }
  | .Enter =>
    let app1 :=
      if app.leave_selection = LeaveSelection.Yes then
        match app.watched_markets_info.get? app.selected_watched_market_index with
        | some market =>
          let market_id := market.id
          let appL := app.leave_market market_id ext.remove_result
          if 0 < appL.selected_watched_market_index
              ∧ appL.watched_markets_info.length ≤ appL.selected_watched_market_index then
            { appL with
              selected_watched_market_index := appL.watched_markets_info.length - 1 }
          else appL
        | none => app
      else app
    { app1 with input_mode := InputMode.Normal }
  | .Esc => { app with input_mode := InputMode.Normal }
  | _ => app

/-- `App::handle_event`: dispatch on the active input mode. -/
def App.handle_event (app : App) (event : KeyEvent) (ext : Ext) : App :=
  match app.input_mode with
  | .Command => app.handle_command_input event ext
  | .QuitConfirmation => app.handle_quit_confirmation event
  | .LeaveMarketConfirmation => app.handle_leave_confirmation event ext
  | .Normal => app.handle_normal_input event ext

/- ===================== association-list lemmas ===================== -/

theorem hmGet_cons_ne (hd : String × VolumeHistory) (l : List (String × VolumeHistory))
    (k : String) (h : (hd.1 == k) = false) : hmGet (hd :: l) k = hmGet l k := by
  simp [hmGet, List.find?, h]

theorem hmGet_cons_eq (hd : String × VolumeHistory) (l : List (String × VolumeHistory))
    (k : String) (h : (hd.1 == k) = true) : hmGet (hd :: l) k = some hd.2 := by
  simp [hmGet, List.find?, h]

theorem hmInsert_cons_ne (hd : String × VolumeHistory) (tl : List (String × VolumeHistory))
    (k : String) (v : VolumeHistory) (h : (hd.1 == k) = false) :
    hmInsert (hd :: tl) k v = hd :: hmInsert tl k v := by
  by_cases ha : tl.any (fun p => p.1 == k)
  · simp only [hmInsert, List.any_cons, h, Bool.false_or, ha, if_true, List.map_cons,
      Bool.false_eq_true, if_false]
  · simp [hmInsert, List.any_cons, h, ha]

theorem hmGet_map_replace (l : List (String × VolumeHistory)) (k k' : String)
    (v : VolumeHistory) (hne : k' ≠ k) :
    hmGet (l.map (fun p => if p.1 == k then (k, v) else p)) k' = hmGet l k' := by
  induction l with
  | nil => rfl
  | cons hd tl ih =>
    by_cases h : (hd.1 == k) = true
    · have h1 : (((k, v) : String × VolumeHistory).1 == k') = false := by
        simp [Ne.symm hne]
      have h2 : (hd.1 == k') = false := by
        have : hd.1 = k := by simpa using h
        simp [this, Ne.symm hne]
      simp only [List.map_cons, h, if_true]
      rw [hmGet_cons_ne _ _ _ h1, hmGet_cons_ne _ _ _ h2]
      exact ih
    · have hf : (hd.1 == k) = false := by simpa using h
      simp only [List.map_cons, hf, Bool.false_eq_true, if_false]
      by_cases hh : (hd.1 == k') = true
      · rw [hmGet_cons_eq _ _ _ hh, hmGet_cons_eq _ _ _ hh]
      · have hh' : (hd.1 == k') = false := by simpa using hh
        rw [hmGet_cons_ne _ _ _ hh', hmGet_cons_ne _ _ _ hh']
        exact ih

theorem hmGet_hmInsert_self (m : List (String × VolumeHistory)) (k : String)
    (v : VolumeHistory) : hmGet (hmInsert m k v) k = some v := by
  induction m with
  | nil => simp [hmInsert, hmGet, List.find?]
  | cons hd tl ih =>
    by_cases h : (hd.1 == k) = true
    · have hmap : hmInsert (hd :: tl) k v
          = (k, v) :: tl.map (fun p => if p.1 == k then (k, v) else p) := by
        simp only [hmInsert, List.any_cons, h, Bool.true_or, if_true, List.map_cons]
      rw [hmap, hmGet_cons_eq]
      simp
    · have hf : (hd.1 == k) = false := by simpa using h
      rw [hmInsert_cons_ne _ _ _ _ hf, hmGet_cons_ne _ _ _ hf]
      exact ih

theorem hmGet_hmInsert_ne (m : List (String × VolumeHistory)) (k k' : String)
    (v : VolumeHistory) (hne : k' ≠ k) :
    hmGet (hmInsert m k v) k' = hmGet m k' := by
  induction m with
  | nil =>
    have h1 : (((k, v) : String × VolumeHistory).1 == k') = false := by
      simp [Ne.symm hne]
    simp only [hmInsert, List.any_nil, Bool.false_eq_true, if_false, List.nil_append]
    rw [hmGet_cons_ne _ _ _ h1]
  | cons hd tl ih =>
    by_cases h : (hd.1 == k) = true
    · have hmap : hmInsert (hd :: tl) k v
          = (hd :: tl).map (fun p => if p.1 == k then (k, v) else p) := by
        simp [hmInsert, List.any_cons, h]
      rw [hmap]
      exact hmGet_map_replace _ _ _ _ hne
    · have hf : (hd.1 == k) = false := by simpa using h
      rw [hmInsert_cons_ne _ _ _ _ hf]
      by_cases hh : (hd.1 == k') = true
      · rw [hmGet_cons_eq _ _ _ hh, hmGet_cons_eq _ _ _ hh]
      · have hh' : (hd.1 == k') = false := by simpa using hh
        rw [hmGet_cons_ne _ _ _ hh', hmGet_cons_ne _ _ _ hh']
        exact ih

/- ===================== claim theorems: analytics ===================== -/

/-- C1: `check_volume_velocity` unconditionally replaces the market's
stored (volume, timestamp) sample (first sample or not, event or not,
leaving every other market's history untouched); when a previous sample
exists and elapsed time is strictly positive it computes
`velocity = Δvolume / Δt`, returns an event exactly when
`|velocity| > volume_velocity_threshold`, and appends that event to the
persisted rows exactly when it is returned; when elapsed time is zero or
negative, or no previous sample exists, no event is returned and nothing
is persisted. -/
theorem check_volume_velocity_spec (d : SpikeDetector) (mid : String) (v : ℚ)
    (now : ℤ) (save_result : Option String) :
    ((check_volume_velocity d mid v now save_result).2.volume_history
        = hmInsert d.volume_history mid ⟨v, now⟩)
    ∧ hmGet (check_volume_velocity d mid v now save_result).2.volume_history mid
        = some ⟨v, now⟩
    ∧ (∀ k, k ≠ mid →
        hmGet (check_volume_velocity d mid v now save_result).2.volume_history k
          = hmGet d.volume_history k)
    ∧ (∀ h, hmGet d.volume_history mid = some h →
        (h.last_timestamp < now → save_result = none →
          (check_volume_velocity d mid v now save_result).1
            = .ok (if |(v - h.last_volume) / ((now - h.last_timestamp : ℤ) : ℚ)|
                      > d.volume_velocity_threshold
                   then some ⟨mid, (v - h.last_volume) / ((now - h.last_timestamp : ℤ) : ℚ),
                          v - h.last_volume, ((now - h.last_timestamp : ℤ) : ℚ), now⟩
                   else none)
          ∧ (check_volume_velocity d mid v now save_result).2.saved_events
            = d.saved_events
              ++ (if |(v - h.last_volume) / ((now - h.last_timestamp : ℤ) : ℚ)|
                      > d.volume_velocity_threshold
                  then [⟨mid, (v - h.last_volume) / ((now - h.last_timestamp : ℤ) : ℚ),
                          v - h.last_volume, ((now - h.last_timestamp : ℤ) : ℚ), now⟩]
                  else []))
        ∧ (now ≤ h.last_timestamp →
            (check_volume_velocity d mid v now save_result).1 = .ok none
            ∧ (check_volume_velocity d mid v now save_result).2.saved_events
                = d.saved_events))
    ∧ (hmGet d.volume_history mid = none →
        (check_volume_velocity d mid v now save_result).1 = .ok none
        ∧ (check_volume_velocity d mid v now save_result).2.saved_events
            = d.saved_events) := by
  rcases hE : hmGet d.volume_history mid with _ | h
  · refine ⟨?_, ?_, ?_, ?_, ?_⟩
    · simp only [check_volume_velocity, hE]
    · simp only [check_volume_velocity, hE]
      exact hmGet_hmInsert_self _ _ _
    · intro k hk
      simp only [check_volume_velocity, hE]
      exact hmGet_hmInsert_ne _ _ _ _ hk
    · intro h hh
      exact absurd hh (by simp)
    · intro _
      exact ⟨by simp only [check_volume_velocity, hE], by simp only [check_volume_velocity, hE]⟩
  · refine ⟨?_, ?_, ?_, ?_, ?_⟩
    · simp only [check_volume_velocity, hE]
      split <;> (try split) <;> rfl
    · simp only [check_volume_velocity, hE]
      split <;> (try split) <;> exact hmGet_hmInsert_self _ _ _
    · intro k hk
      simp only [check_volume_velocity, hE]
      split <;> (try split) <;> exact hmGet_hmInsert_ne _ _ _ _ hk
    · intro h' hh'
      obtain rfl : h = h' := Option.some.inj hh'
      constructor
      · intro hlt hsave
        subst hsave
        have hpos : ((now - h.last_timestamp : ℤ) : ℚ) > 0 := by
          rw [gt_iff_lt, Int.cast_pos, sub_pos]
          exact hlt
        by_cases hth : |(v - h.last_volume) / ((now - h.last_timestamp : ℤ) : ℚ)|
            > d.volume_velocity_threshold
        · simp only [check_volume_velocity, hE, if_pos hpos, if_pos hth]
          exact ⟨by trivial, by trivial⟩
        · simp only [check_volume_velocity, hE, if_pos hpos, if_neg hth]
          exact ⟨by trivial, by simp⟩
      · intro hle
        have hnpos : ¬ (((now - h.last_timestamp : ℤ) : ℚ) > 0) := by
          rw [gt_iff_lt, Int.cast_pos, sub_pos]
          exact not_lt.mpr hle
        simp only [check_volume_velocity, hE, if_neg hnpos]
        exact ⟨by trivial, by trivial⟩
    · intro hnone
      exact absurd hnone (by simp)

/-- Witness detector for `check_volume_velocity_spec`: one recorded sample
(volume 1000 at t = 100), threshold 999. -/
def detectorW : SpikeDetector where
  volume_history := [("m", ⟨1000, 100⟩)]
  saved_events := []
  volume_velocity_threshold := 999
  obi_threshold := 3 / 10

/-- Witness for `check_volume_velocity_spec`: the spec's worked example,
new sample (volume 3000, t = 102), gives velocity 1000 which exceeds the
threshold 999, so the event is returned and persisted, and the stored
sample is replaced. -/
theorem check_volume_velocity_spec_witness :
    (check_volume_velocity detectorW "m" 3000 102 none).1
        = .ok (some ⟨"m", 1000, 2000, 2, 102⟩)
    ∧ (check_volume_velocity detectorW "m" 3000 102 none).2.saved_events
        = [⟨"m", 1000, 2000, 2, 102⟩]
    ∧ hmGet (check_volume_velocity detectorW "m" 3000 102 none).2.volume_history "m"
        = some ⟨3000, 102⟩ := by
  obtain ⟨h1, h2, h3, h4, h5⟩ :=
    check_volume_velocity_spec detectorW "m" 3000 102 none
  obtain ⟨h6, h7⟩ := (h4 ⟨1000, 100⟩ (by decide)) |>.1 (by decide) rfl
  refine ⟨?_, ?_, h2⟩
  · rw [h6]; norm_num [detectorW]
  · rw [h7]; norm_num [detectorW]

/-- C2: `calculate_order_book_imbalance` returns 0 when the volumes sum to
zero and `(bids − asks)/(bids + asks)` otherwise; it meets the spec's four
test vectors, and for non-negative inputs that are not both zero its
absolute value is at most 1. -/
theorem calculate_order_book_imbalance_spec (b a x y : ℚ) (hx : 0 ≤ x) (hy : 0 ≤ y)
    (hxy : ¬(x = 0 ∧ y = 0)) :
    (b + a = 0 → calculate_order_book_imbalance b a = 0)
    ∧ (b + a ≠ 0 → calculate_order_book_imbalance b a = (b - a) / (b + a))
    ∧ calculate_order_book_imbalance 0 0 = 0
    ∧ calculate_order_book_imbalance 100 0 = 1
    ∧ calculate_order_book_imbalance 0 100 = -1
    ∧ |calculate_order_book_imbalance 60 40 - 2 / 10| < 1 / 100
    ∧ |calculate_order_book_imbalance x y| ≤ 1 := by
  have hsum : 0 < x + y := by
    rcases lt_or_eq_of_le hx with h | h
    · linarith
    · rcases lt_or_eq_of_le hy with h2 | h2
      · linarith
      · exact absurd ⟨h.symm, h2.symm⟩ hxy
  refine ⟨fun h => by simp [calculate_order_book_imbalance, h],
    fun h => by simp [calculate_order_book_imbalance, h],
    by norm_num [calculate_order_book_imbalance],
    by norm_num [calculate_order_book_imbalance],
    by norm_num [calculate_order_book_imbalance],
    by norm_num [calculate_order_book_imbalance], ?_⟩
  have hne : x + y ≠ 0 := ne_of_gt hsum
  simp only [calculate_order_book_imbalance, hne, if_false]
  rw [abs_div, abs_of_pos hsum, div_le_one hsum]
  exact abs_le.mpr ⟨by linarith, by linarith⟩

/-- Witness for `calculate_order_book_imbalance_spec` at bids 3, asks 4,
x = 60, y = 40. -/
theorem calculate_order_book_imbalance_spec_witness :
    |calculate_order_book_imbalance 60 40| ≤ 1 :=
  (calculate_order_book_imbalance_spec 3 4 60 40 (by norm_num) (by norm_num)
    (by norm_num)).2.2.2.2.2.2

/- ===================== claim theorems: log ring buffer ===================== -/

theorem add_log_joined (app : App) (level : LogLevel) (message : String) :
    (app.add_log level message).joined_markets = app.joined_markets := rfl

theorem add_log_watched (app : App) (level : LogLevel) (message : String) :
    (app.add_log level message).watched_markets_info = app.watched_markets_info := rfl

theorem add_log_save_calls (app : App) (level : LogLevel) (message : String) :
    (app.add_log level message).db_save_calls = app.db_save_calls := rfl

theorem add_log_remove_calls (app : App) (level : LogLevel) (message : String) :
    (app.add_log level message).db_remove_calls = app.db_remove_calls := rfl

/-- The app state after inserting log entries numbered `1..n` (the message
of entry `i` is the decimal numeral of `i`) into an empty log. -/
def logFill (n : Nat) : App :=
  (List.range n).foldl (fun a i => a.add_log .Info (toString (i + 1))) emptyApp

set_option maxRecDepth 4000 in
/-- C7: `add_log` keeps the log at or below 100 entries, and after
inserting 150 numbered entries into an empty log the buffer holds exactly
entries 51 through 150 in their original relative order. -/
theorem add_log_cap :
    (∀ app level message, (app : App).logs.length ≤ 100 →
        (app.add_log level message).logs.length ≤ 100)
    ∧ (logFill 150).logs.length = 100
    ∧ (logFill 150).logs
        = (List.range' 51 100).map (fun i => ⟨.Info, toString i⟩) := by
  refine ⟨?_, ?_, ?_⟩
  · intro app level message h
    simp only [App.add_log]
    split
    · simp only [List.length_drop, List.length_append, List.length_cons, List.length_nil]
      omega
    · next hng =>
      simp only [gt_iff_lt, Nat.not_lt, List.length_append, List.length_cons,
        List.length_nil] at hng
      simp only [List.length_append, List.length_cons, List.length_nil]
      omega
  · decide
  · decide

/-- Witness for `add_log_cap` on the empty app. -/
theorem add_log_cap_witness :
    emptyApp.logs.length ≤ 100
    ∧ (emptyApp.add_log .Info "x").logs.length ≤ 100 :=
  ⟨by decide, add_log_cap.1 emptyApp .Info "x" (by decide)⟩

/- ===================== claim theorems: watchlist join ===================== -/

/-- The market id a `join_market` call resolves its reference to: an
in-range numeric reference resolves through `available_markets`
(1-based), an out-of-range numeric reference resolves to nothing, and any
non-numeric reference is taken as a literal id. -/
def resolveJoinId (app : App) (market_ref : String) : Option String :=
  match parseUsize market_ref with
  | some index =>
    if 0 < index ∧ index ≤ app.available_markets.length then
      some (app.available_markets.getD (index - 1) default).id
    else none
  | none => some market_ref

/-- Fold a sequence of `join_market` calls (reference, save outcome). -/
def joinSeq (app : App) (calls : List (String × Option String)) : App :=
  calls.foldl (fun a c => a.join_market c.1 c.2) app

/-- The Warning entry logged on a duplicate join. -/
def dupWarn : LogEntry := ⟨.Warning, "Already monitoring this market"⟩

/-- A `join_market` call whose resolved id is already on the watchlist is
exactly one Warning log and nothing else. -/
theorem join_market_dup (app : App) (ref : String) (save : Option String) (id : String)
    (hres : resolveJoinId app ref = some id) (hmem : id ∈ app.joined_markets) :
    app.join_market ref save = app.add_log .Warning "Already monitoring this market" := by
  have hcont : app.joined_markets.contains id = true := by simpa using hmem
  cases hp : parseUsize ref with
  | some index =>
    simp only [resolveJoinId, hp] at hres
    by_cases hr : 0 < index ∧ index ≤ app.available_markets.length
    · rw [if_pos hr] at hres
      have hid : (app.available_markets.getD (index - 1) default).id = id :=
        Option.some.inj hres
      simp only [App.join_market, hp, if_pos hr, hid]
      rw [if_neg (not_not_intro hcont)]
    · rw [if_neg hr] at hres
      exact absurd hres (by simp)
  | none =>
    simp only [resolveJoinId, hp] at hres
    obtain rfl : ref = id := Option.some.inj hres
    simp only [App.join_market, hp]
    rw [if_neg (not_not_intro hcont)]

/-- `join_market` preserves the no-duplicate invariant of the watchlist. -/
theorem join_market_nodup_preserved (app : App) (ref : String) (save : Option String)
    (h : app.joined_markets.Nodup) :
    (app.join_market ref save).joined_markets.Nodup := by
  cases hp : parseUsize ref with
  | some index =>
    by_cases hr : 0 < index ∧ index ≤ app.available_markets.length
    · by_cases hc :
          app.joined_markets.contains (app.available_markets.getD (index - 1) default).id
      · simp only [App.join_market, hp, if_pos hr]
        rw [if_neg (not_not_intro hc)]
        exact h
      · simp only [App.join_market, hp, if_pos hr]
        rw [if_pos hc]
        have hmem : (app.available_markets.getD (index - 1) default).id ∉ app.joined_markets := by
          simpa using hc
        cases save with
        | some e => exact h
        | none =>
          show ((app.joined_markets
              ++ [(app.available_markets.getD (index - 1) default).id]) : List String).Nodup
          exact h.append (List.nodup_singleton _)
            (fun _ hx hy => hmem (List.mem_singleton.mp hy ▸ hx))
    · simp only [App.join_market, hp, if_neg hr]
      exact h
  | none =>
    by_cases hc : app.joined_markets.contains ref
    · simp only [App.join_market, hp]
      rw [if_neg (not_not_intro hc)]
      exact h
    · simp only [App.join_market, hp]
      rw [if_pos hc]
      have hmem : ref ∉ app.joined_markets := by simpa using hc
      cases hf : app.available_markets.find? (fun m => m.id == ref) with
      | some market =>
        cases save with
        | some e => exact h
        | none =>
          show ((app.joined_markets ++ [ref]) : List String).Nodup
          exact h.append (List.nodup_singleton _)
            (fun _ hx hy => hmem (List.mem_singleton.mp hy ▸ hx))
      | none =>
        show ((app.joined_markets ++ [ref]) : List String).Nodup
        exact h.append (List.nodup_singleton _)
          (fun _ hx hy => hmem (List.mem_singleton.mp hy ▸ hx))

/-- C3 (amended): along any sequence of `join_market` calls from an empty
watchlist the watchlist never holds two entries with the same id, and a
join of an already-present id leaves the entire state unchanged except for
appending exactly one Warning log entry (so the log length grows by one
while below the 100-entry cap; at the cap the oldest entry is evicted and
the length stays 100). -/
theorem join_market_dedup_spec :
    (∀ (app : App) (calls : List (String × Option String)),
      app.joined_markets = [] → (joinSeq app calls).joined_markets.Nodup)
    ∧ (∀ (app : App) (ref : String) (save : Option String) (id : String),
        resolveJoinId app ref = some id → id ∈ app.joined_markets →
          (app.join_market ref save).joined_markets = app.joined_markets
          ∧ (app.join_market ref save).watched_markets_info = app.watched_markets_info
          ∧ (app.join_market ref save).logs
              = (if (app.logs ++ [dupWarn]).length > 100
                 then (app.logs ++ [dupWarn]).drop 1
                 else app.logs ++ [dupWarn])
          ∧ (app.logs.length < 100 →
              (app.join_market ref save).logs = app.logs ++ [dupWarn])) := by
  constructor
  · intro app calls happ
    have hstart : app.joined_markets.Nodup := by rw [happ]; exact List.nodup_nil
    clear happ
    induction calls generalizing app with
    | nil => exact hstart
    | cons c rest ih =>
      exact ih _ (join_market_nodup_preserved _ _ _ hstart)
  · intro app ref save id hres hmem
    rw [join_market_dup app ref save id hres hmem]
    refine ⟨rfl, rfl, rfl, ?_⟩
    intro hlen
    simp only [App.add_log, dupWarn]
    rw [if_neg (by simp only [List.length_append, List.length_cons, List.length_nil]; omega)]

/-- Witness for `join_market_dedup_spec`: a duplicate join of "a". -/
theorem join_market_dedup_spec_witness :
    let app := emptyApp.join_market "a" none
    (joinSeq emptyApp [("a", none), ("a", none)]).joined_markets.Nodup
    ∧ (app.join_market "a" none).joined_markets = app.joined_markets
    ∧ (app.join_market "a" none).logs = app.logs ++ [dupWarn] := by
  intro app
  refine ⟨join_market_dedup_spec.1 emptyApp [("a", none), ("a", none)] rfl, ?_, ?_⟩
  · exact (join_market_dedup_spec.2 app "a" none "a" (by decide) (by decide)).1
  · exact (join_market_dedup_spec.2 app "a" none "a" (by decide) (by decide)).2.2.2 (by decide)

set_option maxRecDepth 40000 in
/-- Counterexample to C3 as stated: drive the log to its 100-entry cap by
repeated joins, then join the already-present id "a" once more — the
watchlist is unchanged, a Warning entry is appended, but the log length
does not increase (it stays 100), contradicting "increases the log length
by exactly one entry". -/
theorem join_market_dedup_counterexample :
    let base := joinSeq emptyApp (("a", none) :: List.replicate 99 ("a", none))
    base.logs.length = 100
    ∧ "a" ∈ base.joined_markets
    ∧ (base.join_market "a" none).logs.length = 100 := by
  refine ⟨by decide, by decide, by decide⟩

/-- Counterexample to C4 as stated: joining the out-of-range index 1 on an
empty available-markets list leaves the watchlist untouched but logs the
"Invalid index" message at level Error — no Warning entry appears in the
resulting log. -/
theorem join_market_invalid_index_counterexample :
    (emptyApp.join_market "1" none).logs
        = [(⟨.Error, "Invalid index: 1. Use 1-0"⟩ : LogEntry)]
    ∧ (emptyApp.join_market "1" none).joined_markets = []
    ∧ (emptyApp.join_market "1" none).watched_markets_info = [] := by
  refine ⟨by decide, by decide, by decide⟩

/-- C4 (amended): a reference that parses as a positive integer outside
the 1-based range of `available_markets` changes no watchlist state and
logs exactly one entry — at level Error (never fatal). -/
theorem join_market_invalid_index (app : App) (ref : String) (save : Option String)
    (n : Nat) (hp : parseUsize ref = some n) (hpos : 0 < n)
    (hout : app.available_markets.length < n) :
    app.join_market ref save
      = app.add_log .Error
          ("Invalid index: " ++ toString n ++ ". Use 1-"
            ++ toString app.available_markets.length) := by
  have hr : ¬ (0 < n ∧ n ≤ app.available_markets.length) := by
    intro hand
    omega
  simp only [App.join_market, hp, if_neg hr]

/-- Witness for `join_market_invalid_index`: index 7 on an empty list. -/
theorem join_market_invalid_index_witness :
    parseUsize "7" = some 7
    ∧ 0 < 7
    ∧ emptyApp.available_markets.length < 7
    ∧ emptyApp.join_market "7" none = emptyApp.add_log .Error "Invalid index: 7. Use 1-0" := by
  refine ⟨by decide, by decide, by decide, ?_⟩
  rw [join_market_invalid_index emptyApp "7" none 7 (by decide) (by decide) (by decide)]
  decide

/-- Counterexample to C5 as stated: joining the unknown literal id "abc"
appends the id to `joined_markets` only — no placeholder `MarketInfo` is
constructed, nothing is persisted, `watched_markets_info` stays empty (the
two lists diverge), and the success line names only the id. -/
theorem join_market_placeholder_counterexample :
    (emptyApp.join_market "abc" none).joined_markets = ["abc"]
    ∧ (emptyApp.join_market "abc" none).watched_markets_info = []
    ∧ (emptyApp.join_market "abc" none).db_save_calls = []
    ∧ (emptyApp.join_market "abc" none).logs
        = [(⟨.Success, "Joined market: abc"⟩ : LogEntry)] := by
  refine ⟨by decide, by decide, by decide, by decide⟩

/-- C5 (amended): a non-numeric reference whose id is neither joined nor
found in `available_markets` is appended to `joined_markets` only: no
placeholder entry is constructed or persisted, `watched_markets_info` is
left unchanged, and one Success line naming only the id is logged. -/
theorem join_market_literal_id (app : App) (ref : String) (save : Option String)
    (hp : parseUsize ref = none) (hnj : ref ∉ app.joined_markets)
    (hna : app.available_markets.find? (fun m => m.id == ref) = none) :
    app.join_market ref save
      = ({ app with joined_markets := app.joined_markets ++ [ref] } : App).add_log
          .Success ("Joined market: " ++ ref) := by
  have hc : ¬ app.joined_markets.contains ref = true := by simpa using hnj
  simp only [App.join_market, hp]
  rw [if_pos hc, hna]

/-- Witness for `join_market_literal_id`: the id "abc" on the empty app. -/
theorem join_market_literal_id_witness :
    parseUsize "abc" = none
    ∧ "abc" ∉ emptyApp.joined_markets
    ∧ emptyApp.available_markets.find? (fun m => m.id == "abc") = none
    ∧ emptyApp.join_market "abc" none
        = ({ emptyApp with joined_markets := ["abc"] } : App).add_log
            .Success "Joined market: abc" := by
  refine ⟨by decide, by decide, by decide, ?_⟩
  rw [join_market_literal_id emptyApp "abc" none (by decide) (by decide) (by decide)]
  decide

/- ===================== claim theorems: watchlist leave ===================== -/

/-- C6: `leave_market` of an absent id appends exactly one Warning entry
and changes nothing else; of a present id it invokes the persistence
removal exactly once, and — when the removal succeeds — removes the entry
with that id from both `joined_markets` and `watched_markets_info` so the
watchlist shrinks by exactly one, while on a removal failure it logs an
Error and leaves the in-memory watchlist unchanged. -/
theorem leave_market_spec (app : App) (id : String) (res : Option String) :
    (id ∉ app.joined_markets →
      app.leave_market id res = app.add_log .Warning ("Not monitoring market: " ++ id))
    ∧ (id ∈ app.joined_markets →
        (app.leave_market id res).db_remove_calls = app.db_remove_calls ++ [id]
        ∧ (res = none →
            (app.leave_market id res).joined_markets.length + 1
                = app.joined_markets.length
            ∧ app.leave_market id res
              = ({ app with
                    joined_markets := app.joined_markets.eraseIdx
                      (app.joined_markets.findIdx (fun m => m == id)),
                    watched_markets_info :=
                      app.watched_markets_info.filter (fun m => m.id != id),
                    db_remove_calls := app.db_remove_calls ++ [id] } : App).add_log
                  .Info ("Left market: " ++ id))
        ∧ (∀ e, res = some e →
            (app.leave_market id res).joined_markets = app.joined_markets
            ∧ (app.leave_market id res).watched_markets_info = app.watched_markets_info
            ∧ app.leave_market id res
              = ({ app with db_remove_calls := app.db_remove_calls ++ [id] } : App).add_log
                  .Error ("Failed to remove from DB: " ++ e))) := by
  constructor
  · intro hnm
    have hf : app.joined_markets.findIdx? (fun m => m == id) = none := by
      rw [List.findIdx?_eq_none_iff]
      intro x hx
      exact beq_eq_false_iff_ne.mpr (fun hxe => hnm (hxe ▸ hx))
    simp only [App.leave_market, hf]
  · intro hm
    obtain ⟨pos, hpos⟩ : ∃ p, app.joined_markets.findIdx? (fun m => m == id) = some p := by
      rw [← Option.isSome_iff_exists, List.findIdx?_isSome, List.any_eq_true]
      exact ⟨id, hm, by simp⟩
    have hlt : pos < app.joined_markets.length := by
      have := List.findIdx?_eq_some_iff_findIdx_eq.mp hpos
      omega
    have hfi : app.joined_markets.findIdx (fun m => m == id) = pos :=
      (List.findIdx?_eq_some_iff_findIdx_eq.mp hpos).2
    cases res with
    | none =>
      refine ⟨?_, ?_, ?_⟩
      · simp only [App.leave_market, hpos]
        rfl
      · intro _
        constructor
        · have h1 : (app.joined_markets.eraseIdx pos).length
              = app.joined_markets.length - 1 := by
            simp [List.length_eraseIdx, hlt]
          simp only [App.leave_market, hpos]
          show (app.joined_markets.eraseIdx pos).length + 1 = app.joined_markets.length
          omega
        · simp only [App.leave_market, hpos]
          rw [hfi]
      · intro e he
        exact absurd he (by simp)
    | some e' =>
      refine ⟨?_, ?_, ?_⟩
      · simp only [App.leave_market, hpos]
        rfl
      · intro he
        exact absurd he (by simp)
      · intro e he
        obtain rfl : e' = e := Option.some.inj he
        refine ⟨?_, ?_, ?_⟩ <;> simp only [App.leave_market, hpos] <;> rfl

/-- Witness for `leave_market_spec`: leaving "m1" from a two-market
watchlist with a successful removal, and leaving an absent id. -/
theorem leave_market_spec_witness :
    let app := { emptyApp with
      joined_markets := ["m1", "m2"],
      watched_markets_info :=
        [{ (default : MarketInfo) with id := "m1" }, { (default : MarketInfo) with id := "m2" }] }
    (app.leave_market "m1" none).joined_markets.length + 1 = app.joined_markets.length
    ∧ (app.leave_market "zz" none)
        = app.add_log .Warning "Not monitoring market: zz" := by
  intro app
  constructor
  · exact ((leave_market_spec app "m1" none).2 (by decide)).2.1 rfl |>.1
  · exact (leave_market_spec app "zz" none).1 (by decide)

/- ===================== claim theorems: modal input ===================== -/

/-- A fixed bundle of external-call outcomes for concrete evaluations. -/
def extNone : Ext where
  search_result := .ok []
  trending_result := .ok []
  save_result := none
  remove_result := none
  cancel_result := .ok 0

/-- Pressing q in Normal mode (any tab, Docs included) opens the quit
confirmation with selection No and changes nothing else. -/
theorem handle_normal_q (app : App) (ext : Ext) (ctrl : Bool) :
    app.handle_normal_input ⟨.Char 'q', ctrl⟩ ext
      = { app with
          input_mode := InputMode.QuitConfirmation,
          quit_selection := QuitSelection.No } := by
  by_cases h : app.current_tab = Tab.Docs
  · unfold App.handle_normal_input
    rw [if_pos h]
    rfl
  · unfold App.handle_normal_input
    rw [if_neg h]
    rfl

/-- C8: from Normal mode, the quit key opens QuitConfirmation with
selection No; one toggle keystroke followed by Enter sets `should_quit`
and returns to Normal; Escape instead returns to Normal with
`should_quit` still false. -/
theorem quit_confirmation_flow (app : App) (ext : Ext)
    (hmode : app.input_mode = InputMode.Normal) (hq : app.should_quit = false) :
    ((app.handle_event ⟨.Char 'q', false⟩ ext).input_mode = InputMode.QuitConfirmation)
    ∧ ((app.handle_event ⟨.Char 'q', false⟩ ext).quit_selection = QuitSelection.No)
    ∧ ((((app.handle_event ⟨.Char 'q', false⟩ ext).handle_event ⟨.Tab, false⟩ ext).handle_event
          ⟨.Enter, false⟩ ext).should_quit = true)
    ∧ ((((app.handle_event ⟨.Char 'q', false⟩ ext).handle_event ⟨.Tab, false⟩ ext).handle_event
          ⟨.Enter, false⟩ ext).input_mode = InputMode.Normal)
    ∧ (((app.handle_event ⟨.Char 'q', false⟩ ext).handle_event ⟨.Esc, false⟩ ext).input_mode
        = InputMode.Normal)
    ∧ (((app.handle_event ⟨.Char 'q', false⟩ ext).handle_event ⟨.Esc, false⟩ ext).should_quit
        = false) := by
  have h1 : app.handle_event ⟨.Char 'q', false⟩ ext
      = { app with
          input_mode := InputMode.QuitConfirmation,
          quit_selection := QuitSelection.No } := by
    simp only [App.handle_event, hmode]
    exact handle_normal_q app ext false
  rw [h1]
  exact ⟨rfl, rfl, rfl, rfl, rfl, hq⟩

/-- Witness for `quit_confirmation_flow` on the freshly constructed app. -/
theorem quit_confirmation_flow_witness :
    emptyApp.input_mode = InputMode.Normal
    ∧ emptyApp.should_quit = false
    ∧ (((emptyApp.handle_event ⟨.Char 'q', false⟩ extNone).handle_event
          ⟨.Tab, false⟩ extNone).handle_event ⟨.Enter, false⟩ extNone).should_quit = true :=
  ⟨rfl, rfl, (quit_confirmation_flow emptyApp extNone rfl rfl).2.2.1⟩

/-- Counterexample to C9 as stated: pressing the begin-command key in
Normal mode initializes the buffer to the one-character prefix "/", not
the empty string — and on the Docs tab the keystroke is ignored
entirely. -/
theorem begin_command_counterexample :
    (emptyApp.handle_event ⟨.Char ':', false⟩ extNone).input_mode = InputMode.Command
    ∧ (emptyApp.handle_event ⟨.Char ':', false⟩ extNone).command_input = "/"
    ∧ ¬ (emptyApp.handle_event ⟨.Char ':', false⟩ extNone).command_input = ""
    ∧ ({ emptyApp with current_tab := Tab.Docs } : App).handle_event ⟨.Char ':', false⟩ extNone
        = { emptyApp with current_tab := Tab.Docs } := by
  refine ⟨by decide, by decide, by decide, by decide⟩

/-- C9 (amended): in Normal mode on any tab other than Docs, the
begin-command keystrokes transition to command entry with the buffer
initialized to the prefix "/" (not the empty string), and the quick-search
keystroke initializes the buffer to "/search " and jumps to the Markets
tab; on the Docs tab these keystrokes are ignored. -/
theorem begin_command_spec (app : App) (ext : Ext) (c : Char)
    (hmode : app.input_mode = InputMode.Normal) (htab : app.current_tab ≠ Tab.Docs)
    (hc : c = ':' ∨ c = '/') :
    (app.handle_event ⟨.Char c, false⟩ ext
        = { app with input_mode := InputMode.Command, command_input := "/" })
    ∧ (app.handle_event ⟨.Char 's', false⟩ ext
        = { app with
            input_mode := InputMode.Command,
            command_input := "/search ",
            current_tab := Tab.Markets })
    ∧ (∀ b : App, b.input_mode = InputMode.Normal → b.current_tab = Tab.Docs →
        b.handle_event ⟨.Char c, false⟩ ext = b
        ∧ b.handle_event ⟨.Char 's', false⟩ ext = b) := by
  refine ⟨?_, ?_, ?_⟩
  · rcases hc with rfl | rfl <;>
      (simp only [App.handle_event, hmode]
       unfold App.handle_normal_input
       rw [if_neg htab]
       rfl)
  · simp only [App.handle_event, hmode]
    unfold App.handle_normal_input
    rw [if_neg htab]
    rfl
  · intro b hbmode hbtab
    constructor <;>
      (rcases hc with rfl | rfl <;>
        (simp only [App.handle_event, hbmode]
         unfold App.handle_normal_input
         rw [if_pos hbtab]
         rfl))

/-- Witness for `begin_command_spec` on the freshly constructed app. -/
theorem begin_command_spec_witness :
    emptyApp.input_mode = InputMode.Normal
    ∧ emptyApp.current_tab ≠ Tab.Docs
    ∧ emptyApp.handle_event ⟨.Char ':', false⟩ extNone
        = { emptyApp with input_mode := InputMode.Command, command_input := "/" } :=
  ⟨rfl, by decide, (begin_command_spec emptyApp extNone ':' rfl (by decide) (Or.inl rfl)).1⟩

/-- C10: in Normal mode on every tab (Docs included), Ctrl+C immediately
sets `should_quit` and changes nothing else — in particular the state
never enters QuitConfirmation and no selection toggle happens; the
process-quit flag is reachable by this single keystroke. -/
theorem ctrl_c_quits (app : App) (ext : Ext)
    (hmode : app.input_mode = InputMode.Normal) :
    app.handle_event ⟨.Char 'c', true⟩ ext = { app with should_quit := true } := by
  simp only [App.handle_event, hmode]
  by_cases h : app.current_tab = Tab.Docs
  · unfold App.handle_normal_input
    rw [if_pos h]
    show (if true = true then { app with should_quit := true } else app) = _
    rw [if_pos rfl, hmode]
  · unfold App.handle_normal_input
    rw [if_neg h]
    show (if true = true then { app with should_quit := true } else app) = _
    rw [if_pos rfl, hmode]

/-- Witness for `ctrl_c_quits` on the Docs tab. -/
theorem ctrl_c_quits_witness :
    ({ emptyApp with current_tab := Tab.Docs } : App).handle_event ⟨.Char 'c', true⟩ extNone
      = { ({ emptyApp with current_tab := Tab.Docs } : App) with should_quit := true } :=
  ctrl_c_quits { emptyApp with current_tab := Tab.Docs } extNone rfl

end PolymarketBot
